import Mathlib

/-!
Verification of the librectf authorization / team-membership core.

The repository surface consists of `components/api/src/routes.rs` (the
router and its HTTP handlers) and `components/core/src/state.rs` (shared
state).  The route handlers delegate to operations (`create_team`,
`invite_user`, `submit_flag`, `login_user`, `register_user`, the
`LoginRequired` / `TeamRequired` middlewares) whose bodies live outside
the shown sources; those operations are modelled from the spec, and each
such definition is marked `Modelled from the spec:`.  Everything taken
from `routes.rs` is embedded directly and marked with the source lines.
-/

namespace LibreCTF

/-! ## Data model (spec section 3) -/

inductive InviteStatus
  | Pending
  | Accepted
deriving DecidableEq, Repr

structure Invite where
  identity : Nat
  invitedBy : Nat
  status : InviteStatus
deriving DecidableEq, Repr

structure Team where
  id : Nat
  name : String
  captain : Nat
  roster : List Nat
  invites : List Invite
deriving DecidableEq, Repr

/-- State of the Team Lifecycle Manager: the stored teams plus the next
fresh team id handed out by the backing store. -/
structure TLState where
  teams : List Team
  nextId : Nat
deriving DecidableEq, Repr

inductive TeamError
  | AlreadyOnTeam
  | NameTaken
  | NotCaptain
  | NoSuchUser
  | AlreadyInvited
  | NoSuchInvite
  | NotOnTeam
  | CannotKickSelf
  | ServerError
deriving DecidableEq, Repr

def onSomeTeam (s : TLState) (i : Nat) : Bool :=
  s.teams.any (fun t => t.roster.contains i)

/-- True when `i` sits on the roster of a team other than `tid`. -/
def onOtherTeam (s : TLState) (tid i : Nat) : Bool :=
  s.teams.any (fun t => !(t.id == tid) && t.roster.contains i)

/-- Modelled from the spec: `create(creator_identity, name)` of the Team
Lifecycle Manager (spec 4.3); the body of `create_team` called from
`routes.rs` line 107 is not among the shown sources.  Fails if the
creator already has a team or the name collides; otherwise the new team
has the creator as captain and sole roster member. -/
def create_team (s : TLState) (creator : Nat) (name : String) :
    Except TeamError TLState :=
  if onSomeTeam s creator then .error .AlreadyOnTeam
  else if s.teams.any (fun t => t.name == name) then .error .NameTaken
  else .ok { teams := { id := s.nextId, name := name, captain := creator,
                        roster := [creator], invites := [] } :: s.teams,
             nextId := s.nextId + 1 }

def hasPendingInvite (t : Team) (i : Nat) : Bool :=
  t.invites.any (fun inv =>
    inv.identity == i && inv.status == InviteStatus.Pending)

/-- Modelled from the spec: `invite(captain_identity, target_email)`
(spec 4.3); the body of `invite_user` called from `routes.rs` line 139
is not among the shown sources.  The target is given by identity id
(email resolution belongs to the credential store).  Only the captain of
the requester's team may invite; the target must not already have a
team; a duplicate pending invite is rejected. -/
def invite_user (s : TLState) (requester target : Nat) :
    Except TeamError TLState :=
  match s.teams.find? (fun t => t.roster.contains requester) with
  | none => .error .NotCaptain
  | some t =>
    if !(t.captain == requester) then .error .NotCaptain
    else if onSomeTeam s target then .error .AlreadyOnTeam
    else if hasPendingInvite t target then .error .AlreadyInvited
    else .ok { s with teams := s.teams.map (fun u =>
        if u.id == t.id then
          { u with invites :=
              u.invites ++ [{ identity := target, invitedBy := requester,
                              status := InviteStatus.Pending }] }
        else u) }

/-- Team-level effect of a successful `accept i` of team `tid`: the
accepted team gains `i` on its roster and marks the invite Accepted;
every other team drops the pending invites held by `i`. -/
def acceptTeam (tid i : Nat) (t : Team) : Team :=
  if t.id == tid then
    { t with roster := i :: t.roster,
             invites := t.invites.map (fun inv =>
               if inv.identity == i && inv.status == InviteStatus.Pending
               then { inv with status := InviteStatus.Accepted } else inv) }
  else
    { t with invites := t.invites.filter (fun inv =>
        !(inv.identity == i && inv.status == InviteStatus.Pending)) }

/-- Modelled from the spec: `accept(identity, team_id)` (spec 4.3); the
`team::accept` handler in `routes.rs` lines 127-130 is an unfinished
stub, so the operation is taken from the spec's words: it requires a
Pending invite for that team, requires the identity not to be on a
different team, and on success adds the identity to the roster, marks
the invite Accepted and removes the identity's pending invites to other
teams. -/
def accept (s : TLState) (i tid : Nat) : Except TeamError TLState :=
  match s.teams.find? (fun t => t.id == tid) with
  | none => .error .NoSuchInvite
  | some t =>
    if !hasPendingInvite t i then .error .NoSuchInvite
    else if onOtherTeam s tid i then .error .AlreadyOnTeam
    else .ok { s with teams := s.teams.map (acceptTeam tid i) }

/-- Modelled from the spec: `kick(captain_identity, target_identity)`
(spec 4.3); the `team::manage::kick` handler in `routes.rs` lines
147-150 is an unfinished stub, so the operation is taken from the spec's
words: only the captain may kick, self-kick is rejected, the target must
be on the roster, and on success the target is removed from it. -/
def kick (s : TLState) (requester target : Nat) : Except TeamError TLState :=
  match s.teams.find? (fun t => t.roster.contains requester) with
  | none => .error .NotCaptain
  | some t =>
    if !(t.captain == requester) then .error .NotCaptain
    else if target == requester then .error .CannotKickSelf
    else if !t.roster.contains target then .error .NotOnTeam
    else .ok { s with teams := s.teams.map (fun u =>
        if u.id == t.id then
          { u with roster := u.roster.filter (fun x => !(x == target)) }
        else u) }

inductive TeamOp
  | create (creator : Nat) (name : String)
  | invite (requester target : Nat)
  | accept (identity tid : Nat)
  | kick (requester target : Nat)
deriving DecidableEq, Repr

def applyOp (s : TLState) : TeamOp → Except TeamError TLState
  | .create c n => create_team s c n
  | .invite r t => invite_user s r t
  | .accept i tid => accept s i tid
  | .kick r t => kick s r t

/-- A failing operation leaves the stored state unchanged (spec 7:
full-apply-or-full-rollback). -/
def stepOp (s : TLState) (op : TeamOp) : TLState :=
  match applyOp s op with
  | .ok s' => s'
  | .error _ => s

def runOps (s : TLState) (ops : List TeamOp) : TLState :=
  ops.foldl stepOp s

/-! ## The membership invariant (claim C1) -/

/-- Number of stored teams whose roster carries identity `i`. -/
def rosterCount (i : Nat) : List Team → Nat
  | [] => 0
  | t :: ts => (if t.roster.contains i then 1 else 0) + rosterCount i ts

/-- Spec section 3 invariant: an identity belongs to at most one Team,
and at most one Team roster. -/
def atMostOneTeam (s : TLState) : Prop :=
  ∀ i, rosterCount i s.teams ≤ 1

/-- Well-formedness of the backing store: team ids are distinct and below
the next fresh id, and membership is unique. -/
def validState (s : TLState) : Prop :=
  (s.teams.map Team.id).Nodup ∧ (∀ t ∈ s.teams, t.id < s.nextId) ∧
    atMostOneTeam s

/-! ## Credential service and tokens (spec 4.1) -/

/-- The claims object the `LoginRequired` middleware attaches to the
request extensions; `routes.rs` reads its `id` field (lines 105, 117).
The remaining fields follow SessionClaims of spec section 3. -/
structure LoginClaims where
  id : Nat
  iat : Nat
  exp : Nat
deriving DecidableEq, Repr

/-- Modelled from the spec: opaque signed token produced by the token
signing collaborator (spec 6); signature plus claims payload. -/
structure Token where
  claims : LoginClaims
  sig : Nat
deriving DecidableEq, Repr

def issueToken (secret : Nat) (claims : LoginClaims) : Token :=
  { claims := claims, sig := secret }

/-- Modelled from the spec: `verify(token)` (spec 4.1) validates the
signature and the expiry without touching the backing store. -/
def verifyToken (secret now : Nat) : Option Token → Option LoginClaims
  | none => none
  | some t => if t.sig == secret && now < t.claims.exp then some t.claims else none

structure UserRec where
  id : Nat
  name : String
  email : String
  passwordHash : Nat
deriving DecidableEq, Repr

/-- The error type matched by the `user::login` handler
(routes.rs lines 171-178). -/
inductive UserError
  | AlreadyRegistered
  | BadUsernameOrPassword
  | ServerError (msg : String)
deriving DecidableEq, Repr

structure LoginForm where
  email : String
  password : String
deriving DecidableEq, Repr

structure RegisterForm where
  username : String
  email : String
  password : String
deriving DecidableEq, Repr

/-- Modelled from the spec: `login(email, password)` (spec 4.1); the body
of `login_user` called at routes.rs line 164 is not among the shown
sources.  Looks up the identity by email and fails uniformly with
`BadUsernameOrPassword` both when the email is unknown and when the hash
comparison fails.  The one-way hash is a parameter (spec treats it as an
external collaborator). -/
def login_user (hash : String → Nat) (users : List UserRec)
    (secret now : Nat) (form : LoginForm) :
    Except UserError (UserRec × Token) :=
  match users.find? (fun u => u.email == form.email) with
  | none => .error .BadUsernameOrPassword
  | some u =>
    if u.passwordHash == hash form.password then
      .ok (u, issueToken secret { id := u.id, iat := now, exp := now + 3600 })
    else .error .BadUsernameOrPassword

/-- Modelled from the spec: `register(username, email, password)` (spec
4.1); the body of `register_user` called at routes.rs line 190 is not
among the shown sources.  Rejects if the email or the username is already
present, otherwise stores the hash and issues a token. -/
def register_user (hash : String → Nat) (users : List UserRec)
    (secret now : Nat) (form : RegisterForm) :
    Except UserError (UserRec × Token) :=
  if users.any (fun u => u.email == form.email || u.name == form.username) then
    .error .AlreadyRegistered
  else
    let newU : UserRec := { id := users.length + 1, name := form.username,
                            email := form.email,
                            passwordHash := hash form.password }
    .ok (newU, issueToken secret { id := newU.id, iat := now, exp := now + 3600 })

/-! ## Challenges and the scoring engine (spec 4.4) -/

structure Challenge where
  id : Nat
  title : String
  description : String
  value : Nat
  flag : String
deriving DecidableEq, Repr

/-- A row of the append-only Submission log (spec section 3). -/
structure SubRow where
  team_id : Nat
  user_id : Nat
  chal_id : Nat
  text : String
  correct : Bool
deriving DecidableEq, Repr

structure SubmitForm where
  chalId : Nat
  flag : String
deriving DecidableEq, Repr

/-- The submission value built by `chal::submit` (routes.rs lines 81-85). -/
structure Submission where
  user_id : Nat
  team_id : Nat
  form : SubmitForm
deriving DecidableEq, Repr

structure SubmitResult where
  correct : Bool
  scoring : Bool
deriving DecidableEq, Repr

inductive ChalError
  | NoSuchChallenge
  | ServerError
deriving DecidableEq, Repr

def hasCorrect (team chal : Nat) (log : List SubRow) : Bool :=
  log.any (fun r => r.team_id == team && r.chal_id == chal && r.correct)

/-- Modelled from the spec: `submit(identity, team, challenge_id,
candidate_text)` (spec 4.4); the body of `submit_flag` called at
routes.rs line 86 is not among the shown sources.  Always appends a
Submission row whose outcome is the exact-match comparison of the
candidate text against the canonical flag; the attempt is the scoring one
exactly when it is correct and no prior Correct submission exists for the
(team, challenge) pair. -/
def submit_flag (chals : List Challenge) (log : List SubRow)
    (sub : Submission) : Except ChalError (List SubRow × SubmitResult) :=
  match chals.find? (fun c => c.id == sub.form.chalId) with
  | none => .error .NoSuchChallenge
  | some c =>
    let correct := sub.form.flag == c.flag
    .ok (log ++ [{ team_id := sub.team_id, user_id := sub.user_id,
                   chal_id := c.id, text := sub.form.flag,
                   correct := correct }],
        { correct := correct,
          scoring := correct && !hasCorrect sub.team_id c.id log })

def chalScore (team : Nat) (log : List SubRow) (c : Challenge) : Nat :=
  if hasCorrect team c.id log then c.value else 0

/-- Effective score of a team: each challenge with at least one Correct
submission by the team contributes its point value once (spec 4.4). -/
def totalScore (team : Nat) (chals : List Challenge) (log : List SubRow) : Nat :=
  (chals.map (chalScore team log)).sum

/-! ## The HTTP layer of routes.rs -/

structure TeamView where
  name : String
  roster : List Nat
deriving DecidableEq, Repr

inductive Body
  | empty
  | text (s : String)
  | token (t : Token)
  | chalList (l : List (String × Nat × String))
  | result (r : SubmitResult)
  | profile (v : TeamView)
deriving DecidableEq, Repr

structure HttpResponse where
  status : Nat
  body : Body
deriving DecidableEq, Repr

/-- Embeds `chal::list` (routes.rs lines 59-77): on success the response
body is the json array holding, per challenge, exactly the title, value
and description fields; on error the response is an empty 500. -/
def listRoute (res : Except String (List Challenge)) : HttpResponse :=
  match res with
  | .ok chals =>
      { status := 200,
        body := Body.chalList
          (chals.map (fun c => (c.title, c.value, c.description))) }
  | .error _ => { status := 500, body := Body.empty }

/-- Embeds the submission construction in `chal::submit` (routes.rs lines
81-85): the user id and team id are hard-coded to 1; the handler receives
only the form and a connection, never the requesting identity. -/
def mkSubmission (form : SubmitForm) : Submission :=
  { user_id := 1, team_id := 1, form := form }

/-- Embeds `chal::submit` (routes.rs lines 79-92): builds the hard-coded
submission, runs `submit_flag`, answers 200 with the result or 500 on
error; returns the response together with the resulting log. -/
def submitRoute (chals : List Challenge) (log : List SubRow)
    (form : SubmitForm) : HttpResponse × List SubRow :=
  match submit_flag chals log (mkSubmission form) with
  | .ok (log', r) => ({ status := 200, body := Body.result r }, log')
  | .error _ => ({ status := 500, body := Body.empty }, log)

/-- Embeds `team::accept` (routes.rs lines 127-130): the handler body is
an unfinished stub that ignores the connection and returns an empty 200,
never consulting any invite. -/
def acceptRoute (_db : Unit) : HttpResponse :=
  { status := 200, body := Body.empty }

/-- Embeds `team::manage::invite` (routes.rs lines 137-145): the handler
passes only the form to `invite_user` and maps every error, NotCaptain
included, to an empty 500 response. -/
def inviteRoute (res : Except TeamError Unit) : HttpResponse :=
  match res with
  | .ok _ => { status := 200, body := Body.empty }
  | .error _ => { status := 500, body := Body.empty }

/-- Embeds `team::manage::kick` (routes.rs lines 147-150): the handler
body is an unfinished stub that ignores the connection and returns an
empty 200. -/
def kickRoute (_db : Unit) : HttpResponse :=
  { status := 200, body := Body.empty }

/-- Embeds `user::login` (routes.rs lines 159-179): maps the result of
`login_user` through the handler's error match. -/
def loginRoute (hash : String → Nat) (users : List UserRec)
    (secret now : Nat) (form : LoginForm) : HttpResponse :=
  match login_user hash users secret now form with
  | .ok (_, token) => { status := 200, body := Body.token token }
  | .error .AlreadyRegistered => { status := 400, body := Body.empty }
  | .error .BadUsernameOrPassword => { status := 401, body := Body.empty }
  | .error (.ServerError _) => { status := 500, body := Body.empty }

/-- Embeds `user::register` (routes.rs lines 181-201): on success 200 with
the token; on any error the handler only logs it and answers an empty
500, without distinguishing `AlreadyRegistered`. -/
def registerRoute (hash : String → Nat) (users : List UserRec)
    (secret now : Nat) (form : RegisterForm) : HttpResponse :=
  match register_user hash users secret now form with
  | .ok (_, token) => { status := 200, body := Body.token token }
  | .error _ => { status := 500, body := Body.empty }

/-! ## The authorization pipeline (spec 4.2) and the router -/

/-- Per-request context: the bearer token and the facts attached by the
guards. -/
structure ReqCtx where
  token : Option Token
  claims : Option LoginClaims
  teamId : Option Nat
deriving DecidableEq, Repr

def noAuthCtx : ReqCtx := { token := none, claims := none, teamId := none }

/-- The two guards named by the router (routes.rs lines 20 and 26):
`LoginRequired` and `TeamRequired(strict)`. -/
inductive Guard
  | loginRequired
  | teamRequired (strict : Bool)
deriving DecidableEq, Repr

/-- Process environment: signing secret, current time and the membership
store read by the team guard. -/
structure Env where
  secret : Nat
  now : Nat
  store : TLState
deriving Repr

def findTeamOf (s : TLState) (i : Nat) : Option Team :=
  s.teams.find? (fun t => t.roster.contains i)

/-- Modelled from the spec: the Authentication Guard and Team-Membership
Guard (spec 4.2); the `LoginRequired` and `TeamRequired` middleware
bodies are not among the shown sources.  The authentication guard halts
with 401 unless the token verifies, and attaches the claims; the strict
team guard halts with 403 when the requester has no team, attaching the
team id otherwise; the loose guard always passes, attaching the team id
when there is one. -/
def runGuard (env : Env) : Guard → ReqCtx → Sum HttpResponse ReqCtx
  | .loginRequired, ctx =>
    match verifyToken env.secret env.now ctx.token with
    | none => .inl { status := 401, body := Body.empty }
    | some claims => .inr { ctx with claims := some claims }
  | .teamRequired strict, ctx =>
    if strict then
      match ctx.claims with
      | none => .inl { status := 500, body := Body.empty }
      | some claims =>
        match findTeamOf env.store claims.id with
        | none => .inl { status := 403, body := Body.empty }
        | some t => .inr { ctx with teamId := some t.id }
    else
      match ctx.claims with
      | some claims =>
        match findTeamOf env.store claims.id with
        | some t => .inr { ctx with teamId := some t.id }
        | none => .inr ctx
      | none => .inr ctx

/-- Runs a guard chain in declared order, recording the guards that
actually executed; a halting guard short-circuits the rest (spec 4.2). -/
def runChain (env : Env) : List Guard → ReqCtx →
    List Guard × Sum HttpResponse ReqCtx
  | [], ctx => ([], .inr ctx)
  | g :: gs, ctx =>
    match runGuard env g ctx with
    | .inl resp => ([g], .inl resp)
    | .inr ctx' =>
      let rest := runChain env gs ctx'
      (g :: rest.1, rest.2)

/-- Route dispatch: the handler runs only when every guard passed.
Returns the executed guards, whether the handler ran, and the response. -/
def runRoute (env : Env) (chain : List Guard)
    (handler : ReqCtx → HttpResponse) (ctx : ReqCtx) :
    List Guard × Bool × HttpResponse :=
  match runChain env chain ctx with
  | (tr, .inl resp) => (tr, false, resp)
  | (tr, .inr ctx') => (tr, true, handler ctx')

/-- The guard chain the router declares for the `/team/manage` resources
(routes.rs lines 18-29): `LoginRequired` on the `/team` scope, then
`TeamRequired(True)` on the nested `/manage` scope. -/
def manageChain : List Guard := [Guard.loginRequired, Guard.teamRequired true]

structure CreateTeamForm where
  name : String
deriving DecidableEq, Repr

/-- Embeds `team::create` (routes.rs lines 101-113): the handler unwraps
`LoginClaims` out of the request extensions — `none` models the panic of
that `unwrap` on a request that never passed the Authentication Guard —
and maps every `create_team` error to an empty 500. -/
def createRoute (ctx : ReqCtx) (form : CreateTeamForm) (s : TLState) :
    Option HttpResponse :=
  match ctx.claims with
  | none => none
  | some claims =>
    match create_team s claims.id form.name with
    | .ok _ => some { status := 200, body := Body.empty }
    | .error _ => some { status := 500, body := Body.empty }

/-- Modelled from the spec: `profile(identity)` (spec 4.3); the body of
`my_profile` called at routes.rs line 119 is not among the shown sources.
Read-only projection of the caller's team. -/
def my_profile (s : TLState) (i : Nat) : Except TeamError TeamView :=
  match findTeamOf s i with
  | none => .error .NotOnTeam
  | some t => .ok { name := t.name, roster := t.roster }

/-- Embeds `team::me` (routes.rs lines 115-125): same `unwrap` of the
claims as `team::create`, then `my_profile`, mapping every error to an
empty 500. -/
def meRoute (ctx : ReqCtx) (s : TLState) : Option HttpResponse :=
  match ctx.claims with
  | none => none
  | some claims =>
    match my_profile s claims.id with
    | .ok p => some { status := 200, body := Body.profile p }
    | .error _ => some { status := 500, body := Body.empty }

/-! ## Theorems -/

theorem rosterCount_eq_zero {i : Nat} {ts : List Team}
    (h : ∀ t ∈ ts, t.roster.contains i = false) : rosterCount i ts = 0 := by
  induction ts with
  | nil => rfl
  | cons t ts ih =>
    have ht : i ∉ t.roster := by simpa using h t (by simp)
    simp [rosterCount, ht, ih (fun u hu => h u (by simp [hu]))]

theorem rosterCount_map_of_roster_eq {i : Nat} (f : Team → Team) {ts : List Team}
    (h : ∀ t ∈ ts, (f t).roster = t.roster) :
    rosterCount i (ts.map f) = rosterCount i ts := by
  induction ts with
  | nil => rfl
  | cons t ts ih =>
    simp [rosterCount, h t (by simp), ih (fun u hu => h u (by simp [hu]))]

theorem rosterCount_map_le {i : Nat} (f : Team → Team) {ts : List Team}
    (h : ∀ t ∈ ts, (f t).roster.contains i = true → t.roster.contains i = true) :
    rosterCount i (ts.map f) ≤ rosterCount i ts := by
  induction ts with
  | nil => simp [rosterCount]
  | cons t ts ih =>
    have ih' := ih (fun u hu hc => h u (by simp [hu]) hc)
    simp only [List.map_cons, rosterCount]
    cases hc : (f t).roster.contains i with
    | true =>
      rw [h t (by simp) hc]
      simpa using ih'
    | false =>
      simpa using le_trans ih' (Nat.le_add_left _ _)

theorem rosterCount_map_congr {j : Nat} (f : Team → Team) {ts : List Team}
    (h : ∀ t ∈ ts, (f t).roster.contains j = t.roster.contains j) :
    rosterCount j (ts.map f) = rosterCount j ts := by
  induction ts with
  | nil => rfl
  | cons t ts ih =>
    simp only [List.map_cons, rosterCount]
    rw [h t (by simp), ih (fun u hu => h u (by simp [hu]))]

theorem map_id_eq {f : Team → Team} (hf : ∀ t, (f t).id = t.id) (ts : List Team) :
    (ts.map f).map Team.id = ts.map Team.id := by
  induction ts with
  | nil => rfl
  | cons t ts ih => simp [hf, ih]

theorem onSomeTeam_eq_false {s : TLState} {i : Nat} (h : onSomeTeam s i = false) :
    ∀ t ∈ s.teams, t.roster.contains i = false := by
  intro t ht
  simp only [onSomeTeam] at h
  rw [List.any_eq_false] at h
  simpa using h t ht

theorem onOtherTeam_eq_false {s : TLState} {tid i : Nat}
    (h : onOtherTeam s tid i = false) :
    ∀ t ∈ s.teams, t.id ≠ tid → t.roster.contains i = false := by
  intro t ht hne
  simp only [onOtherTeam] at h
  rw [List.any_eq_false] at h
  have := h t ht
  simp [hne] at this
  simpa using this

theorem rosterCount_acceptTeam_le {i tid : Nat} {ts : List Team}
    (hnd : (ts.map Team.id).Nodup)
    (hother : ∀ t ∈ ts, t.id ≠ tid → t.roster.contains i = false) :
    rosterCount i (ts.map (acceptTeam tid i)) ≤ 1 := by
  induction ts with
  | nil => simp [rosterCount]
  | cons t ts ih =>
    have hnd' : (∀ x ∈ ts, ¬ x.id = t.id) ∧ (ts.map Team.id).Nodup := by
      simpa using hnd
    simp only [List.map_cons, rosterCount]
    by_cases htid : t.id = tid
    · have htail : rosterCount i (ts.map (acceptTeam tid i)) = 0 := by
        apply rosterCount_eq_zero
        intro u hu
        obtain ⟨v, hv, rfl⟩ := List.mem_map.mp hu
        have hvid : v.id ≠ tid := htid ▸ hnd'.1 v hv
        have hro : (acceptTeam tid i v).roster = v.roster := by
          simp [acceptTeam, hvid]
        rw [hro]
        exact hother v (by simp [hv]) hvid
      rw [htail]
      split <;> omega
    · have hro : (acceptTeam tid i t).roster = t.roster := by
        simp [acceptTeam, htid]
      rw [hro, hother t (by simp) htid]
      have := ih hnd'.2 (fun u hu => hother u (by simp [hu]))
      simpa using this

theorem validState_create_ok {s : TLState} {c : Nat} {n : String}
    (h : validState s) (h1 : onSomeTeam s c = false) :
    validState { teams := { id := s.nextId, name := n, captain := c,
                            roster := [c], invites := [] } :: s.teams,
                 nextId := s.nextId + 1 } := by
  obtain ⟨hnd, hb, hone⟩ := h
  have hzero : rosterCount c s.teams = 0 :=
    rosterCount_eq_zero (onSomeTeam_eq_false h1)
  refine ⟨?_, ?_, ?_⟩
  · simp only [List.map_cons]
    refine List.nodup_cons.mpr ⟨?_, hnd⟩
    intro hmem
    obtain ⟨t, ht, hid⟩ := List.mem_map.mp hmem
    have := hb t ht
    omega
  · intro t ht
    rcases List.mem_cons.mp ht with rfl | ht'
    · simp
    · exact Nat.lt_succ_of_lt (hb t ht')
  · intro j
    simp only [rosterCount]
    by_cases hj : j = c
    · subst hj
      simp [hzero]
    · have hjc : ([c].contains j) = false := by simp [hj]
      rw [hjc]
      simpa using hone j

theorem validState_map_sub {s : TLState} (f : Team → Team)
    (hid : ∀ t, (f t).id = t.id)
    (hsub : ∀ t i, (f t).roster.contains i = true → t.roster.contains i = true)
    (h : validState s) : validState { s with teams := s.teams.map f } := by
  obtain ⟨hnd, hb, hone⟩ := h
  refine ⟨?_, ?_, ?_⟩
  · rw [map_id_eq hid]
    exact hnd
  · intro t ht
    obtain ⟨u, hu, rfl⟩ := List.mem_map.mp ht
    rw [hid]
    exact hb u hu
  · intro j
    exact le_trans (rosterCount_map_le f (fun u _ => hsub u j)) (hone j)

theorem validState_accept_ok {s : TLState} {i tid : Nat}
    (h : validState s) (hother : onOtherTeam s tid i = false) :
    validState { s with teams := s.teams.map (acceptTeam tid i) } := by
  obtain ⟨hnd, hb, hone⟩ := h
  have hid : ∀ t, (acceptTeam tid i t).id = t.id := by
    intro t
    unfold acceptTeam
    split <;> rfl
  refine ⟨?_, ?_, ?_⟩
  · rw [map_id_eq hid]
    exact hnd
  · intro t ht
    obtain ⟨u, hu, rfl⟩ := List.mem_map.mp ht
    rw [hid]
    exact hb u hu
  · intro j
    by_cases hj : j = i
    · subst hj
      exact rosterCount_acceptTeam_le hnd (onOtherTeam_eq_false hother)
    · have heq : rosterCount j (s.teams.map (acceptTeam tid i)) =
          rosterCount j s.teams := by
        apply rosterCount_map_congr
        intro t _
        unfold acceptTeam
        split
        · simp [hj]
        · rfl
      rw [heq]
      exact hone j

theorem create_team_ok {s s' : TLState} {c : Nat} {n : String}
    (h : create_team s c n = .ok s') :
    onSomeTeam s c = false ∧
    s' = { teams := { id := s.nextId, name := n, captain := c,
                      roster := [c], invites := [] } :: s.teams,
           nextId := s.nextId + 1 } := by
  unfold create_team at h
  split at h
  · simp at h
  · split at h
    · simp at h
    · rename_i h1 _
      refine ⟨?_, ?_⟩
      · cases hx : onSomeTeam s c
        · rfl
        · exact absurd hx h1
      · injection h with h
        exact h.symm

theorem invite_user_ok {s s' : TLState} {r tg : Nat}
    (h : invite_user s r tg = .ok s') :
    ∃ t0 : Team, s' = { s with teams := s.teams.map (fun u =>
      if u.id == t0.id then
        { u with invites := u.invites ++ [{ identity := tg, invitedBy := r,
                                            status := InviteStatus.Pending }] }
      else u) } := by
  unfold invite_user at h
  split at h
  · simp at h
  · rename_i t0 _
    split at h
    · simp at h
    · split at h
      · simp at h
      · split at h
        · simp at h
        · refine ⟨t0, ?_⟩
          injection h with h
          exact h.symm

theorem accept_ok {s s' : TLState} {i tid : Nat} (h : accept s i tid = .ok s') :
    onOtherTeam s tid i = false ∧
    s' = { s with teams := s.teams.map (acceptTeam tid i) } := by
  unfold accept at h
  split at h
  · simp at h
  · split at h
    · simp at h
    · split at h
      · simp at h
      · rename_i hoth
        refine ⟨?_, ?_⟩
        · cases hx : onOtherTeam s tid i
          · rfl
          · exact absurd hx hoth
        · injection h with h
          exact h.symm

theorem kick_ok {s s' : TLState} {r tg : Nat} (h : kick s r tg = .ok s') :
    ∃ t0 : Team, s' = { s with teams := s.teams.map (fun u =>
      if u.id == t0.id then
        { u with roster := u.roster.filter (fun x => !(x == tg)) }
      else u) } := by
  unfold kick at h
  split at h
  · simp at h
  · rename_i t0 _
    split at h
    · simp at h
    · split at h
      · simp at h
      · split at h
        · simp at h
        · refine ⟨t0, ?_⟩
          injection h with h
          exact h.symm

theorem validState_stepOp {s : TLState} (op : TeamOp) (h : validState s) :
    validState (stepOp s op) := by
  cases op with
  | create c n =>
    cases hstep : create_team s c n with
    | error e => simpa [stepOp, applyOp, hstep] using h
    | ok s' =>
      have hrw : stepOp s (TeamOp.create c n) = s' := by
        simp [stepOp, applyOp, hstep]
      rw [hrw]
      obtain ⟨h1, rfl⟩ := create_team_ok hstep
      exact validState_create_ok h h1
  | invite r t =>
    cases hstep : invite_user s r t with
    | error e => simpa [stepOp, applyOp, hstep] using h
    | ok s' =>
      have hrw : stepOp s (TeamOp.invite r t) = s' := by
        simp [stepOp, applyOp, hstep]
      rw [hrw]
      obtain ⟨t0, rfl⟩ := invite_user_ok hstep
      refine validState_map_sub _ ?_ ?_ h
      · intro u
        dsimp only
        split <;> rfl
      · intro u i
        dsimp only
        split <;> exact id
  | accept i tid =>
    cases hstep : accept s i tid with
    | error e => simpa [stepOp, applyOp, hstep] using h
    | ok s' =>
      have hrw : stepOp s (TeamOp.accept i tid) = s' := by
        simp [stepOp, applyOp, hstep]
      rw [hrw]
      obtain ⟨hoth, rfl⟩ := accept_ok hstep
      exact validState_accept_ok h hoth
  | kick r t =>
    cases hstep : kick s r t with
    | error e => simpa [stepOp, applyOp, hstep] using h
    | ok s' =>
      have hrw : stepOp s (TeamOp.kick r t) = s' := by
        simp [stepOp, applyOp, hstep]
      rw [hrw]
      obtain ⟨t0, rfl⟩ := kick_ok hstep
      refine validState_map_sub _ ?_ ?_ h
      · intro u
        dsimp only
        split <;> rfl
      · intro u i
        dsimp only
        split
        · intro hh
          simp at hh ⊢
          exact hh.1
        · exact id

theorem validState_runOps {s : TLState} (ops : List TeamOp) (h : validState s) :
    validState (runOps s ops) := by
  induction ops generalizing s with
  | nil => exact h
  | cons op ops ih => exact ih (validState_stepOp op h)

/-- Claim C1: after any sequence of create, invite, accept and kick
operations starting from a valid state, every identity belongs to at most
one Team and appears in at most one Team roster. -/
theorem c1_membership_invariant (s : TLState) (ops : List TeamOp)
    (h : validState s) : atMostOneTeam (runOps s ops) :=
  (validState_runOps ops h).2.2

/-- Witness for C1 at a concrete operation sequence from the empty store. -/
theorem c1_membership_invariant_witness :
    atMostOneTeam (runOps ⟨[], 0⟩
      [TeamOp.create 1 "red", TeamOp.invite 1 2, TeamOp.accept 2 0,
       TeamOp.create 3 "blue", TeamOp.kick 1 2]) :=
  c1_membership_invariant ⟨[], 0⟩ _
    ⟨by simp, by simp, fun i => by simp [rosterCount]⟩

theorem hasCorrect_append (team x : Nat) (log : List SubRow) (row : SubRow) :
    hasCorrect team x (log ++ [row]) =
      (hasCorrect team x log ||
        (row.team_id == team && row.chal_id == x && row.correct)) := by
  simp [hasCorrect, List.any_append]

theorem find?_challenge_self {chals : List Challenge} {c : Challenge}
    (hnd : (chals.map Challenge.id).Nodup) (hc : c ∈ chals) :
    chals.find? (fun d => d.id == c.id) = some c := by
  induction chals with
  | nil => simp at hc
  | cons d ds ih =>
    have hnd' : (∀ x ∈ ds, ¬ x.id = d.id) ∧ (ds.map Challenge.id).Nodup := by
      simpa using hnd
    rcases List.mem_cons.mp hc with rfl | hc'
    · simp [List.find?]
    · have hne : (d.id == c.id) = false := by
        simp only [beq_eq_false_iff_ne, ne_eq]
        intro heq
        exact hnd'.1 c hc' heq.symm
      rw [List.find?_cons, hne]
      exact ih hnd'.2 hc'

theorem totalScore_cons (team : Nat) (e : Challenge) (es : List Challenge)
    (log : List SubRow) :
    totalScore team (e :: es) log =
      chalScore team log e + totalScore team es log := by
  simp [totalScore]

theorem chalScore_append_ne {team : Nat} {log : List SubRow} {row : SubRow}
    {e : Challenge} (h : row.chal_id ≠ e.id) :
    chalScore team (log ++ [row]) e = chalScore team log e := by
  unfold chalScore
  rw [hasCorrect_append]
  have hb : (row.chal_id == e.id) = false := by simpa using h
  simp [hb]

theorem chalScore_append_already {team : Nat} {log : List SubRow}
    {row : SubRow} {e : Challenge} (h : hasCorrect team e.id log = true) :
    chalScore team (log ++ [row]) e = chalScore team log e := by
  unfold chalScore
  rw [hasCorrect_append, h]
  simp

theorem totalScore_append_of_ne {team : Nat} {ds : List Challenge}
    {log : List SubRow} {row : SubRow} (h : ∀ e ∈ ds, row.chal_id ≠ e.id) :
    totalScore team ds (log ++ [row]) = totalScore team ds log := by
  induction ds with
  | nil => rfl
  | cons e es ih =>
    rw [totalScore_cons, totalScore_cons, ih (fun u hu => h u (by simp [hu])),
        chalScore_append_ne (h e (by simp))]

theorem totalScore_append_already {team : Nat} {chals : List Challenge}
    {log : List SubRow} {row : SubRow}
    (h : hasCorrect team row.chal_id log = true) :
    totalScore team chals (log ++ [row]) = totalScore team chals log := by
  induction chals with
  | nil => rfl
  | cons e es ih =>
    rw [totalScore_cons, totalScore_cons, ih]
    congr 1
    by_cases he : e.id = row.chal_id
    · exact chalScore_append_already (by rw [he]; exact h)
    · exact chalScore_append_ne (fun hh => he hh.symm)

theorem totalScore_append_first {team : Nat} {chals : List Challenge}
    {c : Challenge} {log : List SubRow} {row : SubRow}
    (hnd : (chals.map Challenge.id).Nodup) (hc : c ∈ chals)
    (hrow : row.team_id = team) (hrid : row.chal_id = c.id)
    (hcor : row.correct = true)
    (hfirst : hasCorrect team c.id log = false) :
    totalScore team chals (log ++ [row]) =
      totalScore team chals log + c.value := by
  induction chals with
  | nil => simp at hc
  | cons d ds ih =>
    have hnd' : (∀ x ∈ ds, ¬ x.id = d.id) ∧ (ds.map Challenge.id).Nodup := by
      simpa using hnd
    rcases List.mem_cons.mp hc with rfl | hc'
    · rw [totalScore_cons, totalScore_cons]
      have hds : totalScore team ds (log ++ [row]) = totalScore team ds log := by
        apply totalScore_append_of_ne
        intro e he
        rw [hrid]
        intro heq
        exact hnd'.1 e he heq.symm
      have h1 : chalScore team log c = 0 := by simp [chalScore, hfirst]
      have h2 : chalScore team (log ++ [row]) c = c.value := by
        unfold chalScore
        rw [hasCorrect_append, hfirst]
        simp [hrow, hrid, hcor]
      rw [h1, h2, hds]
      omega
    · have hdc : d.id ≠ c.id := fun hh => hnd'.1 c hc' hh.symm
      rw [totalScore_cons, totalScore_cons, ih hnd'.2 hc']
      rw [chalScore_append_ne (by rw [hrid]; exact fun hh => hdc hh.symm)]
      omega

/-- Claim C2: for a fixed (team, challenge) pair, at most one Correct
submission counts toward the score: the first correct submission raises
the team's score by the challenge's point value, and every later correct
submission — by any member of the team — is appended to the log with a
Correct outcome but leaves the score unchanged and is not the scoring
attempt. -/
theorem c2_score_credited_once (chals : List Challenge) (c : Challenge)
    (team u1 : Nat) (log : List SubRow)
    (hnd : (chals.map Challenge.id).Nodup) (hc : c ∈ chals)
    (hfirst : hasCorrect team c.id log = false) :
    submit_flag chals log
        { user_id := u1, team_id := team,
          form := { chalId := c.id, flag := c.flag } } =
      .ok (log ++ [{ team_id := team, user_id := u1, chal_id := c.id,
                     text := c.flag, correct := true }],
           { correct := true, scoring := true }) ∧
    totalScore team chals (log ++ [{ team_id := team, user_id := u1,
                                     chal_id := c.id, text := c.flag,
                                     correct := true }]) =
      totalScore team chals log + c.value ∧
    (∀ u2 log2, hasCorrect team c.id log2 = true →
      submit_flag chals log2
          { user_id := u2, team_id := team,
            form := { chalId := c.id, flag := c.flag } } =
        .ok (log2 ++ [{ team_id := team, user_id := u2, chal_id := c.id,
                        text := c.flag, correct := true }],
             { correct := true, scoring := false }) ∧
      totalScore team chals (log2 ++ [{ team_id := team, user_id := u2,
                                        chal_id := c.id, text := c.flag,
                                        correct := true }]) =
        totalScore team chals log2) := by
  have hfind := find?_challenge_self hnd hc
  refine ⟨?_, ?_, ?_⟩
  · unfold submit_flag
    dsimp only
    rw [hfind]
    simp [hfirst]
  · exact totalScore_append_first hnd hc rfl rfl rfl hfirst
  · intro u2 log2 h2
    refine ⟨?_, ?_⟩
    · unfold submit_flag
      dsimp only
      rw [hfind]
      simp [h2]
    · exact totalScore_append_already h2

/-- Witness for C2: one challenge worth 100 points, first correct
submission from an empty log. -/
theorem c2_score_credited_once_witness :
    totalScore 1 [{ id := 5, title := "warmup", description := "d",
                    value := 100, flag := "flag" }]
      ([] ++ [{ team_id := 1, user_id := 2, chal_id := 5, text := "flag",
                correct := true }]) =
      totalScore 1 [{ id := 5, title := "warmup", description := "d",
                      value := 100, flag := "flag" }] [] + 100 :=
  (c2_score_credited_once
    [{ id := 5, title := "warmup", description := "d", value := 100,
       flag := "flag" }]
    { id := 5, title := "warmup", description := "d", value := 100,
      flag := "flag" }
    1 2 [] (by simp) (by simp) rfl).2.1

/-- Claim C3 (code bug): the `team::accept` handler (routes.rs lines
127-130) is an unfinished stub: for any request it returns an empty 200
without consulting any invite or membership state, so an accept by an
identity with no pending invite succeeds with 200 instead of failing with
NoSuchInvite, and no roster or invite is ever updated. -/
theorem c3_accept_handler_stub (db : Unit) :
    acceptRoute db = { status := 200, body := Body.empty } := rfl

/-- Claim C4 (code bug): the `team::manage::kick` handler (routes.rs lines
147-150) is an unfinished stub that answers 200 to any requester, captain
or not; and the `team::manage::invite` handler (routes.rs lines 137-145)
maps every failure of `invite_user`, a NotCaptain failure included, to an
empty 500 response rather than the 403 the spec prescribes. -/
theorem c4_notcaptain_not_enforced :
    (∀ db : Unit, kickRoute db = { status := 200, body := Body.empty }) ∧
    inviteRoute (.error TeamError.NotCaptain) =
      { status := 500, body := Body.empty } :=
  ⟨fun _ => rfl, rfl⟩

/-- Claim C5 (code bug): every Submission row the flag-submission route
appends carries user_id 1 and team_id 1 — the values hard-coded in
`chal::submit` (routes.rs lines 82-83) — regardless of the form or the
state; the handler receives no requesting identity at all, so the
recorded ids cannot depend on the requester. -/
theorem c5_submission_ids_hardcoded (chals : List Challenge)
    (log : List SubRow) (form : SubmitForm) (row : SubRow)
    (hrow : row ∈ (submitRoute chals log form).2) :
    row ∈ log ∨ (row.user_id = 1 ∧ row.team_id = 1) := by
  unfold submitRoute at hrow
  cases hsub : submit_flag chals log (mkSubmission form) with
  | error e =>
    rw [hsub] at hrow
    exact Or.inl hrow
  | ok p =>
    obtain ⟨log', r⟩ := p
    rw [hsub] at hrow
    dsimp only at hrow
    unfold submit_flag at hsub
    cases hfind : chals.find?
        (fun c => c.id == (mkSubmission form).form.chalId) with
    | none =>
      rw [hfind] at hsub
      cases hsub
    | some c =>
      rw [hfind] at hsub
      injection hsub with hsub
      have hlog := congrArg Prod.fst hsub
      dsimp only at hlog
      rw [← hlog] at hrow
      rcases List.mem_append.mp hrow with hl | hr
      · exact Or.inl hl
      · right
        rw [List.mem_singleton] at hr
        rw [hr]
        exact ⟨rfl, rfl⟩

/-- Witness for C5 at a concrete submission. -/
theorem c5_submission_ids_hardcoded_witness :
    ({ team_id := 1, user_id := 1, chal_id := 7, text := "flag",
       correct := true } : SubRow) ∈ ([] : List SubRow) ∨
    (({ team_id := 1, user_id := 1, chal_id := 7, text := "flag",
        correct := true } : SubRow).user_id = 1 ∧
     ({ team_id := 1, user_id := 1, chal_id := 7, text := "flag",
        correct := true } : SubRow).team_id = 1) :=
  c5_submission_ids_hardcoded
    [{ id := 7, title := "t", description := "d", value := 5,
       flag := "flag" }]
    [] { chalId := 7, flag := "flag" } _ (by decide)

/-- Claim C6: a login attempt with an unknown email and one with a known
email but a failing hash comparison produce identical caller-visible
responses: both are the empty 401 response, so the two failure causes are
indistinguishable to the caller. -/
theorem c6_login_uniform_failure (hash : String → Nat) (users : List UserRec)
    (secret now : Nat) (f1 f2 : LoginForm) (u : UserRec)
    (h1 : users.find? (fun v => v.email == f1.email) = none)
    (h2 : users.find? (fun v => v.email == f2.email) = some u)
    (h3 : ¬ u.passwordHash = hash f2.password) :
    loginRoute hash users secret now f1 = loginRoute hash users secret now f2 ∧
    loginRoute hash users secret now f1 =
      { status := 401, body := Body.empty } := by
  have hb : (u.passwordHash == hash f2.password) = false := by
    simpa using h3
  unfold loginRoute login_user
  rw [h1, h2]
  dsimp only
  rw [hb]
  exact ⟨rfl, rfl⟩

/-- Witness for C6: unknown email versus wrong password against a
one-user store. -/
theorem c6_login_uniform_failure_witness :
    loginRoute (fun p => p.length)
        [{ id := 1, name := "alice", email := "a@x", passwordHash := 2 }]
        9 0 { email := "b@x", password := "hi" } =
      loginRoute (fun p => p.length)
        [{ id := 1, name := "alice", email := "a@x", passwordHash := 2 }]
        9 0 { email := "a@x", password := "xyz" } ∧
    loginRoute (fun p => p.length)
        [{ id := 1, name := "alice", email := "a@x", passwordHash := 2 }]
        9 0 { email := "b@x", password := "hi" } =
      { status := 401, body := Body.empty } :=
  c6_login_uniform_failure (fun p => p.length)
    [{ id := 1, name := "alice", email := "a@x", passwordHash := 2 }]
    9 0 { email := "b@x", password := "hi" } { email := "a@x", password := "xyz" }
    { id := 1, name := "alice", email := "a@x", passwordHash := 2 }
    rfl rfl (by decide)

/-- Claim C7 (code bug): registering with an email already present is
rejected with AlreadyRegistered by the credential service, but the
`user::register` handler (routes.rs lines 197-200) maps every error to an
empty 500 response, not the 400 the spec's status table prescribes. -/
theorem c7_register_duplicate_500 :
    register_user (fun p => p.length)
        [{ id := 1, name := "alice", email := "a@x", passwordHash := 2 }]
        9 0 { username := "bob", email := "a@x", password := "pw" } =
      .error .AlreadyRegistered ∧
    registerRoute (fun p => p.length)
        [{ id := 1, name := "alice", email := "a@x", passwordHash := 2 }]
        9 0 { username := "bob", email := "a@x", password := "pw" } =
      { status := 500, body := Body.empty } := by
  constructor <;> rfl

/-- Claim C8: on the `/team/manage` routes the authentication guard runs
first; a request without a valid token is answered 401 with the strict
team guard and the handler never executing, and an authenticated request
whose identity has no team is answered 403 with the handler never
executing — for every handler, so the handler's behaviour is irrelevant. -/
theorem c8_manage_pipeline (env : Env) (handler : ReqCtx → HttpResponse)
    (ctx : ReqCtx) :
    (verifyToken env.secret env.now ctx.token = none →
      runRoute env manageChain handler ctx =
        ([Guard.loginRequired], false,
         { status := 401, body := Body.empty })) ∧
    (∀ claims, verifyToken env.secret env.now ctx.token = some claims →
      findTeamOf env.store claims.id = none →
      runRoute env manageChain handler ctx =
        ([Guard.loginRequired, Guard.teamRequired true], false,
         { status := 403, body := Body.empty })) := by
  constructor
  · intro h
    simp [runRoute, runChain, manageChain, runGuard, h]
  · intro claims h1 h2
    simp [runRoute, runChain, manageChain, runGuard, h1, h2]

/-- Witness for C8: a tokenless request and an authenticated teamless
request against the empty store. -/
theorem c8_manage_pipeline_witness :
    runRoute { secret := 9, now := 0, store := ⟨[], 0⟩ } manageChain
        (fun _ => { status := 200, body := Body.empty }) noAuthCtx =
      ([Guard.loginRequired], false,
       { status := 401, body := Body.empty }) ∧
    runRoute { secret := 9, now := 0, store := ⟨[], 0⟩ } manageChain
        (fun _ => { status := 200, body := Body.empty })
        { token := some { claims := { id := 1, iat := 0, exp := 5 },
                          sig := 9 },
          claims := none, teamId := none } =
      ([Guard.loginRequired, Guard.teamRequired true], false,
       { status := 403, body := Body.empty }) :=
  ⟨(c8_manage_pipeline { secret := 9, now := 0, store := ⟨[], 0⟩ }
      (fun _ => { status := 200, body := Body.empty }) noAuthCtx).1 rfl,
   (c8_manage_pipeline { secret := 9, now := 0, store := ⟨[], 0⟩ }
      (fun _ => { status := 200, body := Body.empty })
      { token := some { claims := { id := 1, iat := 0, exp := 5 }, sig := 9 },
        claims := none, teamId := none }).2
     { id := 1, iat := 0, exp := 5 } rfl rfl⟩

/-- Claim C9: the challenge-listing response exposes per challenge exactly
the title, value and description, and is invariant under any change that
keeps those three fields — the canonical flag neither appears in nor
influences the response. -/
theorem c9_list_public_fields (chals : List Challenge) :
    listRoute (.ok chals) =
      { status := 200,
        body := Body.chalList
          (chals.map (fun c => (c.title, c.value, c.description))) } ∧
    (∀ chals' : List Challenge,
      chals.map (fun c => (c.title, c.value, c.description)) =
        chals'.map (fun c => (c.title, c.value, c.description)) →
      listRoute (.ok chals) = listRoute (.ok chals')) := by
  refine ⟨rfl, fun chals' h => ?_⟩
  simp [listRoute, h]

/-- Witness for C9: two stores that differ only in the canonical flag give
the same listing response. -/
theorem c9_list_public_fields_witness :
    listRoute (.ok [{ id := 1, title := "t", description := "d", value := 5,
                      flag := "secret1" }]) =
    listRoute (.ok [{ id := 1, title := "t", description := "d", value := 5,
                      flag := "secret2" }]) :=
  (c9_list_public_fields
    [{ id := 1, title := "t", description := "d", value := 5,
       flag := "secret1" }]).2
    [{ id := 1, title := "t", description := "d", value := 5,
       flag := "secret2" }] rfl

/-- Claim C10: the `unwrap` of LoginClaims in `team::create` and
`team::me` cannot panic on a request that passed the Authentication
Guard, because a passing guard always attaches the claims; on a request
that never passed the guard the claims are absent and both handlers hit
the panicking branch (modelled as `none`). -/
theorem c10_claims_unwrap_safe (env : Env) (ctx0 ctx : ReqCtx)
    (form : CreateTeamForm) (s : TLState)
    (h : runGuard env Guard.loginRequired ctx0 = .inr ctx) :
    (createRoute ctx form s).isSome = true ∧
    (meRoute ctx s).isSome = true ∧
    createRoute noAuthCtx form s = none ∧ meRoute noAuthCtx s = none := by
  have hclaims : ∃ claims, ctx.claims = some claims := by
    simp only [runGuard] at h
    cases hv : verifyToken env.secret env.now ctx0.token with
    | none =>
      rw [hv] at h
      cases h
    | some claims =>
      rw [hv] at h
      injection h with h
      exact ⟨claims, by rw [← h]⟩
  obtain ⟨claims, hcl⟩ := hclaims
  refine ⟨?_, ?_, rfl, rfl⟩
  · simp only [createRoute, hcl]
    cases create_team s claims.id form.name <;> rfl
  · simp only [meRoute, hcl]
    cases my_profile s claims.id <;> rfl

/-- Witness for C10: a request carrying a valid token passes the guard and
both handlers answer without panicking. -/
theorem c10_claims_unwrap_safe_witness :
    (createRoute { token := some { claims := { id := 1, iat := 0, exp := 5 },
                                   sig := 9 },
                   claims := some { id := 1, iat := 0, exp := 5 },
                   teamId := none }
       { name := "red" } ⟨[], 0⟩).isSome = true ∧
    (meRoute { token := some { claims := { id := 1, iat := 0, exp := 5 },
                               sig := 9 },
               claims := some { id := 1, iat := 0, exp := 5 },
               teamId := none } ⟨[], 0⟩).isSome = true ∧
    createRoute noAuthCtx { name := "red" } ⟨[], 0⟩ = none ∧
    meRoute noAuthCtx ⟨[], 0⟩ = none :=
  c10_claims_unwrap_safe { secret := 9, now := 0, store := ⟨[], 0⟩ }
    { token := some { claims := { id := 1, iat := 0, exp := 5 }, sig := 9 },
      claims := none, teamId := none }
    { token := some { claims := { id := 1, iat := 0, exp := 5 }, sig := 9 },
      claims := some { id := 1, iat := 0, exp := 5 }, teamId := none }
    { name := "red" } ⟨[], 0⟩ rfl

end LibreCTF
